import Mathlib

/-!
Shallow embedding of the Acala CDP engine module
(src/modules/cdp_engine/src/lib.rs) and proofs about its behaviour.

Balances are `u128`, modelled as `Nat` with explicit saturation at
`2 ^ 128 - 1`.  `Rate`, `Ratio`, `Price` and `ExchangeRate` are all the
substrate `FixedU128` fixed-point type (18 decimals), modelled as a `Nat`
inner value with the saturating / checked operations of
`sp_arithmetic::FixedPointNumber` spelled out.
-/

/-- Maximum value of a `u128`, the inner representation of balances and of
`FixedU128` fixed-point numbers. -/
def U128MAX : Nat := 2 ^ 128 - 1

/-- Accuracy (`DIV`) of `FixedU128`: 18 decimal places. -/
def FPACC : Nat := 10 ^ 18

/-- The substrate `FixedU128` fixed-point number: `inner / FPACC`. -/
structure FixedU128 where
  inner : Nat
deriving DecidableEq, Repr

/-- FixedU128::max_value(): inner value saturated at u128::MAX. -/
def fixedMax : FixedU128 := ⟨U128MAX⟩

/-- FixedU128 zero (the `Default` value of a `Rate`). -/
def fixedZero : FixedU128 := ⟨0⟩

/-- Saturating addition of two fixed-point numbers. -/
def satAdd (a b : FixedU128) : FixedU128 := ⟨min (a.inner + b.inner) U128MAX⟩

/-- Saturating fixed-point multiplication: `a * b` with the result floored to
the accuracy and saturated at `u128::MAX`. -/
def satMul (a b : FixedU128) : FixedU128 := ⟨min (a.inner * b.inner / FPACC) U128MAX⟩

/-- `FixedPointNumber::saturating_mul_int`: multiply a fixed-point number by an
integer balance, flooring and saturating at `u128::MAX`. -/
def satMulInt (a : FixedU128) (n : Nat) : Nat := min (a.inner * n / FPACC) U128MAX

/-- `FixedPointNumber::saturating_mul_acc_int`: `a * n + n`, i.e.
`self.saturating_mul_int(n).saturating_add(n)`. -/
def satMulAccInt (a : FixedU128) (n : Nat) : Nat := min (satMulInt a n + n) U128MAX

/-- `FixedPointNumber::checked_from_rational`: `n / d` as a fixed-point number,
`none` when the denominator is zero or the result overflows `u128`. -/
def checkedFromRational (n d : Nat) : Option FixedU128 :=
  if d = 0 then none
  else if n * FPACC / d ≤ U128MAX then some ⟨n * FPACC / d⟩ else none

/-- `u128::checked_sub`: `none` on underflow. -/
def checkedSub (a b : Nat) : Option Nat :=
  if b ≤ a then some (a - b) else none

/-- A CDP position, as read from the loans module: locked collateral and
outstanding debit. -/
structure Position where
  collateral : Nat
  debit : Nat
deriving DecidableEq, Repr

/-- Per-collateral risk management parameters (storage item
`CollateralParams`). `none` optional fields fall back to protocol defaults. -/
structure RiskManagementParams where
  maximumTotalDebitValue : Nat
  stabilityFee : Option FixedU128
  liquidationRatio : Option FixedU128
  liquidationPenalty : Option FixedU128
  requiredCollateralRatio : Option FixedU128
deriving DecidableEq, Repr

/-- The `Default` value of `RiskManagementParams` (what `collateral_params`
returns for a currency with no stored entry). -/
def rmpDefault : RiskManagementParams := ⟨0, none, none, none, none⟩

/-- Runtime constants of the module (`Trait` associated constants). -/
structure Consts where
  collateralCurrencyIds : List Nat
  stableCurrencyId : Nat
  defaultLiquidationRatio : FixedU128
  defaultDebitExchangeRate : FixedU128
  defaultLiquidationPenalty : FixedU128
  maxSlippageSwapWithDex : FixedU128
  minimumDebitValue : Nat
  unsignedPriority : Nat

/-- The module's own storage: `DebitExchangeRate`, `CollateralParams` and
`GlobalStabilityFee`. -/
structure EngineState where
  debitExchangeRate : Nat → Option FixedU128
  collateralParams : Nat → RiskManagementParams
  globalStabilityFee : FixedU128

/-- External collaborators (price oracle, loans module, CDP treasury, DEX,
shutdown flag) as consulted during one call.  Fallible collaborator calls
return `Except Nat Unit`: failures carry an opaque error code.  In substrate,
dispatch errors are namespaced per module, so a collaborator failure is never
equal to one of this module's own `CdpError` values. -/
structure Env where
  getRelativePrice : Nat → Nat → Option FixedU128
  positions : Nat → Nat → Position
  totalPositionsDebit : Nat → Nat
  onSystemSurplusOk : Nat → Bool
  isShutdown : Bool
  dexGetSupplyAmount : Nat → Nat → Nat → Nat
  dexGetExchangeSlippage : Nat → Nat → Nat → Option FixedU128
  confiscateResult : Nat → Nat → Nat → Nat → Except Nat Unit
  swapCollateralToStableResult : Nat → Nat → Nat → Except Nat Unit
  withdrawCollateralResult : Nat → Nat → Nat → Except Nat Unit
  createCollateralAuctionsResult : Nat → Nat → Nat → Nat → Bool → Except Nat Unit
  loansAdjustPositionResult : Nat → Nat → Int → Int → Except Nat Unit

/-- Errors of the cdp_engine module (`decl_error`). -/
inductive CdpError
  | exceedDebitValueHardCap
  | belowRequiredCollateralRatio
  | belowLiquidationRatio
  | mustBeUnsafe
  | invalidCollateralType
  | remainDebitValueTooSmall
  | invalidFeedPrice
  | noDebitValue
  | alreadyShutdown
  | mustAfterShutdown
deriving DecidableEq, Repr

/-- A dispatch error: either one of this module's errors or an opaque error of
an external collaborator module. -/
inductive DispatchError
  | module : CdpError → DispatchError
  | ext : Nat → DispatchError
deriving DecidableEq, Repr

/-- `get_stability_fee`: per-collateral extra fee (or zero) saturating-plus the
global stability fee. -/
def getStabilityFee (s : EngineState) (c : Nat) : FixedU128 :=
  satAdd ((s.collateralParams c).stabilityFee.getD fixedZero) s.globalStabilityFee

/-- `get_liquidation_ratio`: per-collateral override, else the default. -/
def getLiquidationRatio (k : Consts) (s : EngineState) (c : Nat) : FixedU128 :=
  (s.collateralParams c).liquidationRatio.getD k.defaultLiquidationRatio

/-- `get_liquidation_penalty`: per-collateral override, else the default. -/
def getLiquidationPenalty (k : Consts) (s : EngineState) (c : Nat) : FixedU128 :=
  (s.collateralParams c).liquidationPenalty.getD k.defaultLiquidationPenalty

/-- `get_debit_exchange_rate`: stored rate, else the default. -/
def getDebitExchangeRate (k : Consts) (s : EngineState) (c : Nat) : FixedU128 :=
  (s.debitExchangeRate c).getD k.defaultDebitExchangeRate

/-- Modelled from the spec: `debit_to_value` (the
`DebitExchangeRateConvertor`, whose module file is not among the sources)
multiplies the debit balance by the collateral type's debit exchange rate
with saturating fixed-point multiplication. -/
def getDebitValue (k : Consts) (s : EngineState) (c : Nat) (debit : Nat) : Nat :=
  satMulInt (getDebitExchangeRate k s c) debit

/-- `calculate_collateral_ratio`: `price * collateral` (saturating) divided by
the debit value, defaulting to the maximum representable ratio when the
rational is not representable (zero denominator or overflow). -/
def calculateCollateralRatio (k : Consts) (s : EngineState) (c : Nat)
    (collateral debit : Nat) (price : FixedU128) : FixedU128 :=
  (checkedFromRational (satMulInt price collateral) (getDebitValue k s c debit)).getD fixedMax

/-- `is_cdp_unsafe`: false when no price is available; otherwise the collateral
ratio is strictly below the effective liquidation ratio. -/
def isCdpUnsafe (k : Consts) (e : Env) (s : EngineState) (c collateral debit : Nat) : Bool :=
  match e.getRelativePrice c k.stableCurrencyId with
  | some feedPrice =>
      decide ((calculateCollateralRatio k s c collateral debit feedPrice).inner
        < (getLiquidationRatio k s c).inner)
  | none => false

/-- Outcome of a successful settlement: the confiscation request made to the
loans module. -/
structure SettleOutcome where
  confiscatedCollateral : Nat
  confiscatedDebit : Nat
deriving DecidableEq, Repr

/-- `settle_cdp_has_debit`: fail with `NoDebitValue` on zero debit, then with
`InvalidFeedPrice` when the stablecoin-in-collateral price is unavailable;
otherwise confiscate `min(settle_price * bad_debt_value, collateral)` of
collateral and all of the debit. -/
def settleCdpHasDebit (k : Consts) (e : Env) (s : EngineState) (who c : Nat) :
    Except DispatchError SettleOutcome :=
  let pos := e.positions c who
  if pos.debit = 0 then .error (.module .noDebitValue)
  else
    match e.getRelativePrice k.stableCurrencyId c with
    | none => .error (.module .invalidFeedPrice)
    | some settlePrice =>
      let badDebtValue := getDebitValue k s c pos.debit
      let amount := min (satMulInt settlePrice badDebtValue) pos.collateral
      match e.confiscateResult who c amount pos.debit with
      | .error n => .error (.ext n)
      | .ok _ => .ok ⟨amount, pos.debit⟩

/-- The two liquidation strategies. -/
inductive LiquidationStrategy
  | auction
  | exchange
deriving DecidableEq, Repr

/-- Data of the `LiquidateUnsafeCDP` event, plus the refunded amount on the
exchange path. -/
structure LiquidateOutcome where
  collateral : Nat
  badDebtValue : Nat
  strategy : LiquidationStrategy
  refund : Option Nat
deriving DecidableEq, Repr

/-- Result of `liquidate_unsafe_cdp`: success, dispatch error, or the panic of
the `expect` on the refund subtraction. -/
inductive LiquidateResult
  | ok : LiquidateOutcome → LiquidateResult
  | err : DispatchError → LiquidateResult
  | panicked
deriving DecidableEq, Repr

/-- The slippage guard of the strategy decision:
`get_exchange_slippage(..).map_or(false, |s| s <= MaxSlippageSwapWithDEX)`. -/
def slippageAcceptable (k : Consts) (e : Env) (c stableId supplyAmount : Nat) : Bool :=
  match e.dexGetExchangeSlippage c stableId supplyAmount with
  | some sl => decide (sl.inner ≤ k.maxSlippageSwapWithDex.inner)
  | none => false

/-- The strategy decision of `liquidate_unsafe_cdp`: exchange iff the supply
amount is nonzero, covered by the confiscated collateral, and the slippage is
defined and acceptable. -/
def chooseLiquidationStrategy (k : Consts) (e : Env)
    (c stableId collateral supplyCollateralAmount : Nat) : LiquidationStrategy :=
  if supplyCollateralAmount ≠ 0 ∧ supplyCollateralAmount ≤ collateral ∧
      slippageAcceptable k e c stableId supplyCollateralAmount = true then
    .exchange
  else .auction

/-- The two `match liquidation_strategy` arms of `liquidate_unsafe_cdp`:
exchange swaps `supply` collateral for the target stable amount and refunds
`collateral - supply` (the `expect` whose failure is `panicked`), auction hands
the whole collateral to the treasury's auction factory. -/
def disposeCollateral (e : Env) (who c supply target collateral badDebtValue : Nat) :
    LiquidationStrategy → LiquidateResult
  | .exchange =>
    match e.swapCollateralToStableResult c supply target with
    | .error n => .err (.ext n)
    | .ok _ =>
      match checkedSub collateral supply with
      | none => .panicked
      | some refundAmount =>
        match e.withdrawCollateralResult who c refundAmount with
        | .error n => .err (.ext n)
        | .ok _ => .ok ⟨collateral, badDebtValue, .exchange, some refundAmount⟩
  | .auction =>
    match e.createCollateralAuctionsResult c collateral target who true with
    | .error n => .err (.ext n)
    | .ok _ => .ok ⟨collateral, badDebtValue, .auction, none⟩

/-- `liquidate_unsafe_cdp`. -/
def liquidateUnsafeCdp (k : Consts) (e : Env) (s : EngineState) (who c : Nat) :
    LiquidateResult :=
  let pos := e.positions c who
  let stableId := k.stableCurrencyId
  if isCdpUnsafe k e s c pos.collateral pos.debit = false then
    .err (.module .mustBeUnsafe)
  else
    match e.confiscateResult who c pos.collateral pos.debit with
    | .error n => .err (.ext n)
    | .ok _ =>
      let badDebtValue := getDebitValue k s c pos.debit
      let targetStableAmount := satMulAccInt (getLiquidationPenalty k s c) badDebtValue
      let supplyCollateralAmount := e.dexGetSupplyAmount c stableId targetStableAmount
      disposeCollateral e who c supplyCollateralAmount targetStableAmount
        pos.collateral badDebtValue
        (chooseLiquidationStrategy k e c stableId pos.collateral supplyCollateralAmount)

/-- The debit-exchange-rate increment of one accrual step:
`debit_exchange_rate.saturating_mul(stability_fee_rate)`. -/
def feeIncrement (k : Consts) (s : EngineState) (c : Nat) : FixedU128 :=
  satMul (getDebitExchangeRate k s c) (getStabilityFee s c)

/-- The stablecoin amount handed to the treasury in one accrual step:
`increment.saturating_mul_int(total_debit_value)`. -/
def issuedSurplus (k : Consts) (e : Env) (s : EngineState) (c : Nat) : Nat :=
  satMulInt (feeIncrement k s c) (getDebitValue k s c (e.totalPositionsDebit c))

/-- The body of the `on_finalize` loop for one collateral type: accrue the fee
and advance the exchange rate only when the treasury surplus call succeeds. -/
def onFinalizeCurrency (k : Consts) (e : Env) (s : EngineState) (c : Nat) : EngineState :=
  let rate := getDebitExchangeRate k s c
  let feeRate := getStabilityFee s c
  let totalDebits := e.totalPositionsDebit c
  if feeRate.inner ≠ 0 ∧ totalDebits ≠ 0 then
    if e.onSystemSurplusOk (issuedSurplus k e s c) then
      { s with debitExchangeRate :=
          fun x => if x = c then some (satAdd rate (feeIncrement k s c)) else s.debitExchangeRate x }
    else s
  else s

/-- `on_finalize`: when not shut down, accrue fees for every configured
collateral type in order. -/
def onFinalize (k : Consts) (e : Env) (s : EngineState) : EngineState :=
  if e.isShutdown then s
  else k.collateralCurrencyIds.foldl (fun st c => onFinalizeCurrency k e st c) s

/-- `set_global_params`: overwrite the global stability fee. -/
def setGlobalParams (s : EngineState) (fee : FixedU128) : EngineState :=
  { s with globalStabilityFee := fee }

/-- The `orml` `Change` type: leave a field as is, or store a new value. -/
inductive ParamChange (α : Type)
  | noChange
  | newValue (v : α)

/-- Apply a `ParamChange` to the current value of a field. -/
def applyChange {α : Type} (ch : ParamChange α) (old : α) : α :=
  match ch with
  | .noChange => old
  | .newValue v => v

/-- `set_collateral_params`: reject collateral types outside the configured
set, otherwise apply each requested field change. -/
def setCollateralParams (k : Consts) (s : EngineState) (c : Nat)
    (sf lr lp rcr : ParamChange (Option FixedU128)) (mtdv : ParamChange Nat) :
    Except DispatchError EngineState :=
  if k.collateralCurrencyIds.contains c = false then
    .error (.module .invalidCollateralType)
  else
    let p := s.collateralParams c
    let p2 : RiskManagementParams :=
      { maximumTotalDebitValue := applyChange mtdv p.maximumTotalDebitValue
        stabilityFee := applyChange sf p.stabilityFee
        liquidationRatio := applyChange lr p.liquidationRatio
        liquidationPenalty := applyChange lp p.liquidationPenalty
        requiredCollateralRatio := applyChange rcr p.requiredCollateralRatio }
    .ok { s with collateralParams := fun x => if x = c then p2 else s.collateralParams x }

/-- `adjust_position`: reject collateral types outside the configured set,
otherwise delegate to the loans module. -/
def adjustPosition (k : Consts) (e : Env) (who c : Nat) (ca da : Int) :
    Except DispatchError Unit :=
  if k.collateralCurrencyIds.contains c = false then
    .error (.module .invalidCollateralType)
  else
    match e.loansAdjustPositionResult who c ca da with
    | .error n => .error (.ext n)
    | .ok _ => .ok ()

/-- The module operations that can touch the module's own storage over the life
of the chain.  `liquidate_unsafe_cdp`, `settle_cdp_has_debit` and
`adjust_position` write only to external modules (loans, treasury) and emit
events; they write none of this module's three storage items, so they keep the
state unchanged here. -/
inductive ModuleOp
  | finalizeBlock (e : Env)
  | globalParams (fee : FixedU128)
  | collateralParamsOp (c : Nat) (sf lr lp rcr : ParamChange (Option FixedU128))
      (mtdv : ParamChange Nat)
  | liquidateOp (e : Env) (who c : Nat)
  | settleOp (e : Env) (who c : Nat)
  | adjustOp (e : Env) (who c : Nat) (ca da : Int)

/-- Apply one module operation to the module storage (a failed dispatch rolls
back, leaving the state unchanged). -/
def applyOp (k : Consts) (s : EngineState) : ModuleOp → EngineState
  | .finalizeBlock e => onFinalize k e s
  | .globalParams fee => setGlobalParams s fee
  | .collateralParamsOp c sf lr lp rcr mtdv =>
      match setCollateralParams k s c sf lr lp rcr mtdv with
      | .ok s2 => s2
      | .error _ => s
  | .liquidateOp _ _ _ => s
  | .settleOp _ _ _ => s
  | .adjustOp _ _ _ _ _ => s

/-- An unsigned call submitted to `validate_unsigned`. -/
inductive UnsignedCall
  | liquidateCall (c who : Nat)
  | settleCall (c who : Nat)
  | otherCall
deriving DecidableEq, Repr

/-- Transaction rejection reasons relevant here. -/
inductive TxError
  | stale
  | badCall
deriving DecidableEq, Repr

/-- The fields of a built `ValidTransaction`; a deduplication tag in
`provides` is the encoding of the tuple passed to `and_provides`. -/
structure ValidTransaction where
  priority : Nat
  provides : List (List Nat)
  longevity : Nat
  propagate : Bool
deriving DecidableEq, Repr

/-- `validate_unsigned`: staleness gating and construction of the
`ValidTransaction` for the two unsigned calls. -/
def validateUnsigned (k : Consts) (e : Env) (s : EngineState) (blockNumber : Nat) :
    UnsignedCall → Except TxError ValidTransaction
  | .liquidateCall c who =>
    let pos := e.positions c who
    if isCdpUnsafe k e s c pos.collateral pos.debit = false ∨ e.isShutdown = true then
      .error .stale
    else
      .ok { priority := k.unsignedPriority, provides := [[blockNumber, c, who]],
            longevity := 64, propagate := true }
  | .settleCall c who =>
    let pos := e.positions c who
    if pos.debit = 0 ∨ e.isShutdown = false then
      .error .stale
    else
      .ok { priority := k.unsignedPriority, provides := [[c, who]],
            longevity := 64, propagate := true }
  | .otherCall => .error .badCall

/-- The per-invocation entry bound of the offchain worker (`MAX_ITERATIONS`). -/
def MAXITERATIONS : Nat := 10000

/-- Modelled from the spec: the ledger collaborator's storage iterator visits
the positions of one collateral type in native key order; starting from a
resume key it yields exactly the entries whose key is strictly greater.  Keys
are modelled as naturals, a position list as its sorted key list. -/
def entriesAfter (entries : List Nat) (resume : Option Nat) : List Nat :=
  match resume with
  | none => entries
  | some key => entries.filter (fun e => decide (key < e))

/-- The keys examined by one bounded scanner invocation. -/
def scanExamined (entries : List Nat) (resume : Option Nat) (maxIter : Nat) : List Nat :=
  (entriesAfter entries resume).take maxIter

/-- Whether the bounded iteration reached the end of this collateral type's
positions (the iterator's `finished` flag). -/
def scanFinished (entries : List Nat) (resume : Option Nat) (maxIter : Nat) : Bool :=
  decide ((entriesAfter entries resume).length ≤ maxIter)

/-- The iterator's `previous_key` at the end of the invocation: the last key
examined, or the start key when nothing was examined. -/
def scanLastKey (entries : List Nat) (resume : Option Nat) (maxIter : Nat) : Option Nat :=
  match (scanExamined entries resume maxIter).getLast? with
  | some key => some key
  | none => resume

/-- Advance of the checkpoint's collateral index when one collateral type's
iteration finished: step to the next configured index, wrapping to 0 after the
last (`len` is the configured list's length; subtraction is saturating). -/
def nextCollateralPosition (len pos : Nat) : Nat :=
  if pos < len - 1 then pos + 1 else 0

/-- The checkpoint persisted at the end of one invocation (lines 540-552 of the
source): on a finished iteration clear the resume key and advance the index,
otherwise keep the index and store the last key examined. -/
def updateCheckpoint (len pos : Nat) (finished : Bool) (lastKey : Option Nat) :
    Nat × Option Nat :=
  if finished then (nextCollateralPosition len pos, none) else (pos, lastKey)

/-- The checkpoint persisted by a scanner invocation over the given sorted key
list, starting from `resume`, with iteration bound `maxIter`. -/
def scannerCheckpoint (entries : List Nat) (len pos : Nat) (resume : Option Nat)
    (maxIter : Nat) : Nat × Option Nat :=
  updateCheckpoint len pos (scanFinished entries resume maxIter)
    (scanLastKey entries resume maxIter)

/-- Loading the persisted checkpoint at the start of an invocation: the stored
record if present, else a random collateral index with no resume key. -/
def loadCheckpoint (stored : Option (Nat × Option Nat)) (randomPick : Nat) :
    Nat × Option Nat :=
  match stored with
  | some cp => cp
  | none => (randomPick, none)

/-- The unchecked indexing `collateral_currency_ids[collateral_position]` of
the worker; `none` models the Rust out-of-bounds panic. -/
def workerCurrencyLookup (ids : List Nat) (pos : Nat) : Option Nat :=
  ids.get? pos

/-- Sample runtime constants: two collateral currencies, stablecoin id 0,
default liquidation ratio 1.5, default exchange rate 1.0, default penalty
0.05, max DEX slippage 0.1. -/
def sampleConsts : Consts :=
  { collateralCurrencyIds := [1, 2]
    stableCurrencyId := 0
    defaultLiquidationRatio := ⟨15 * 10 ^ 17⟩
    defaultDebitExchangeRate := ⟨10 ^ 18⟩
    defaultLiquidationPenalty := ⟨5 * 10 ^ 16⟩
    maxSlippageSwapWithDex := ⟨10 ^ 17⟩
    minimumDebitValue := 2
    unsignedPriority := 11 }

/-- Sample module storage: nothing stored, zero global fee. -/
def sampleState : EngineState :=
  { debitExchangeRate := fun _ => none
    collateralParams := fun _ => rmpDefault
    globalStabilityFee := fixedZero }

/-- Sample module storage with a nonzero global stability fee of 0.01. -/
def sampleStateFee : EngineState :=
  { debitExchangeRate := fun _ => none
    collateralParams := fun _ => rmpDefault
    globalStabilityFee := ⟨10 ^ 16⟩ }

/-- Sample environment before shutdown: collateral price 0.6, an unsafe
position (100 collateral, 50 debit), a DEX quote of 40 with slippage 0.05,
all collaborator calls succeeding. -/
def envLiquidate : Env :=
  { getRelativePrice := fun a b => if a = 1 ∧ b = 0 then some ⟨6 * 10 ^ 17⟩ else none
    positions := fun c who => if c = 1 ∧ who = 7 then ⟨100, 50⟩ else ⟨0, 0⟩
    totalPositionsDebit := fun _ => 50
    onSystemSurplusOk := fun _ => true
    isShutdown := false
    dexGetSupplyAmount := fun _ _ _ => 40
    dexGetExchangeSlippage := fun _ _ _ => some ⟨5 * 10 ^ 16⟩
    confiscateResult := fun _ _ _ _ => .ok ()
    swapCollateralToStableResult := fun _ _ _ => .ok ()
    withdrawCollateralResult := fun _ _ _ => .ok ()
    createCollateralAuctionsResult := fun _ _ _ _ _ => .ok ()
    loansAdjustPositionResult := fun _ _ _ _ => .ok () }

/-- Sample environment whose price oracle has no data at all. -/
def envNoPrice : Env :=
  { envLiquidate with getRelativePrice := fun _ _ => none }

/-- Sample environment in which the treasury rejects every surplus credit. -/
def envSurplusFail : Env :=
  { envLiquidate with onSystemSurplusOk := fun _ => false }

/-- Sample environment after emergency shutdown: settle price (stablecoin in
collateral) 2.0, a position with 10 collateral and 5 debit. -/
def envSettle : Env :=
  { envLiquidate with
    getRelativePrice := fun a b => if a = 0 ∧ b = 1 then some ⟨2 * 10 ^ 18⟩ else none
    positions := fun c who => if c = 1 ∧ who = 7 then ⟨10, 5⟩ else ⟨0, 0⟩
    isShutdown := true }

/-- Decidable equality of `Except` results, for evaluating the model on
concrete inputs. -/
instance {ε α : Type} [DecidableEq ε] [DecidableEq α] : DecidableEq (Except ε α) :=
  fun x y =>
    match x, y with
    | .ok a, .ok b =>
      if h : a = b then isTrue (by rw [h]) else isFalse (by intro hc; cases hc; exact h rfl)
    | .error a, .error b =>
      if h : a = b then isTrue (by rw [h]) else isFalse (by intro hc; cases hc; exact h rfl)
    | .ok _, .error _ => isFalse (by intro hc; cases hc)
    | .error _, .ok _ => isFalse (by intro hc; cases hc)

/-- Well-formedness of the module storage: every stored exchange rate is a
representable `u128` inner value. -/
def WFState (s : EngineState) : Prop :=
  ∀ c r, s.debitExchangeRate c = some r → r.inner ≤ U128MAX

/-- Apply a sequence of module operations in order. -/
def applyOps (k : Consts) (ops : List ModuleOp) (s : EngineState) : EngineState :=
  ops.foldl (applyOp k) s

/-- C6: for every input whose debit value is zero, `calculate_collateral_ratio`
returns the maximum representable ratio (no division by zero, no error: the
function is total); otherwise it returns the fixed-point quotient of the
saturating product `price * collateral` by the debit value, saturated at the
maximum representable ratio. -/
theorem C6_ratio_zero_debit (k : Consts) (s : EngineState) (c collateral debit : Nat)
    (price : FixedU128) :
    (getDebitValue k s c debit = 0 →
      calculateCollateralRatio k s c collateral debit price = fixedMax) ∧
    (getDebitValue k s c debit ≠ 0 →
      (calculateCollateralRatio k s c collateral debit price).inner =
        min (satMulInt price collateral * FPACC / getDebitValue k s c debit) U128MAX) := by
  constructor
  · intro h
    simp [calculateCollateralRatio, checkedFromRational, h]
  · intro h
    by_cases h2 : satMulInt price collateral * FPACC / getDebitValue k s c debit ≤ U128MAX
    · simp [calculateCollateralRatio, checkedFromRational, h, h2]
    · simp [calculateCollateralRatio, checkedFromRational, h, h2, fixedMax]
      omega

/-- C6 witness: with nothing stored and zero debit the ratio saturates to the
maximum. -/
theorem C6_witness :
    calculateCollateralRatio sampleConsts sampleState 1 100 0 ⟨10 ^ 18⟩ = fixedMax :=
  (C6_ratio_zero_debit sampleConsts sampleState 1 100 0 ⟨10 ^ 18⟩).1 (by decide)

/-- C5: `is_cdp_unsafe` returns false whenever the oracle has no price for the
(collateral, stablecoin) pair; with a price it returns true exactly when the
computed collateral ratio is strictly below the effective liquidation ratio,
which is the per-collateral override when set and the protocol default
otherwise. -/
theorem C5_price_gate (k : Consts) (e : Env) (s : EngineState) (c collateral debit : Nat) :
    (e.getRelativePrice c k.stableCurrencyId = none →
      isCdpUnsafe k e s c collateral debit = false) ∧
    (∀ p, e.getRelativePrice c k.stableCurrencyId = some p →
      (isCdpUnsafe k e s c collateral debit = true ↔
        (calculateCollateralRatio k s c collateral debit p).inner
          < (getLiquidationRatio k s c).inner)) ∧
    getLiquidationRatio k s c =
      (s.collateralParams c).liquidationRatio.getD k.defaultLiquidationRatio := by
  refine ⟨?_, ?_, rfl⟩
  · intro h
    simp [isCdpUnsafe, h]
  · intro p h
    simp [isCdpUnsafe, h]

/-- C5 witness: with an empty price feed a grossly undercollateralized position
is still reported as safe. -/
theorem C5_witness :
    isCdpUnsafe sampleConsts envNoPrice sampleState 1 0 50 = false :=
  (C5_price_gate sampleConsts envNoPrice sampleState 1 0 50).1 rfl

/-- C2: `settle_cdp_has_debit` fails with `NoDebitValue` on zero debit and with
`InvalidFeedPrice` when the settle price is unavailable; on success it
confiscates exactly `min(settle_price * bad_debt_value, collateral)` of
collateral together with all of the debit, and that amount never exceeds the
position's collateral. -/
theorem C2_settle_confiscation (k : Consts) (e : Env) (s : EngineState) (who c : Nat) :
    ((e.positions c who).debit = 0 →
      settleCdpHasDebit k e s who c = .error (.module .noDebitValue)) ∧
    ((e.positions c who).debit ≠ 0 →
      e.getRelativePrice k.stableCurrencyId c = none →
      settleCdpHasDebit k e s who c = .error (.module .invalidFeedPrice)) ∧
    (∀ p out, e.getRelativePrice k.stableCurrencyId c = some p →
      settleCdpHasDebit k e s who c = .ok out →
      out.confiscatedCollateral =
        min (satMulInt p (getDebitValue k s c (e.positions c who).debit))
          (e.positions c who).collateral ∧
      out.confiscatedDebit = (e.positions c who).debit ∧
      out.confiscatedCollateral ≤ (e.positions c who).collateral) := by
  refine ⟨?_, ?_, ?_⟩
  · intro h
    simp [settleCdpHasDebit, h]
  · intro h hp
    simp [settleCdpHasDebit, h, hp]
  · intro p out hp hok
    unfold settleCdpHasDebit at hok
    by_cases h : (e.positions c who).debit = 0
    · simp [h] at hok
    · simp only [h, if_false, hp] at hok
      revert hok
      cases e.confiscateResult who c
        (min (satMulInt p (getDebitValue k s c (e.positions c who).debit))
          (e.positions c who).collateral) (e.positions c who).debit with
      | error n => intro hok; cases hok
      | ok u =>
        intro hok
        cases hok
        refine ⟨rfl, rfl, ?_⟩
        exact Nat.min_le_right _ _

/-- C2 witness: settle price 2.0, position (10, 5): the product 2.0 * 5 = 10 is
capped at the 10 units of collateral actually held, and all 5 debit is
confiscated. -/
theorem C2_witness :
    settleCdpHasDebit sampleConsts envSettle sampleState 7 1 = .ok ⟨10, 5⟩ ∧
    (10 : Nat) = min (satMulInt ⟨2 * 10 ^ 18⟩
      (getDebitValue sampleConsts sampleState 1 5)) 10 ∧
    (10 : Nat) ≤ 10 := by
  have h := (C2_settle_confiscation sampleConsts envSettle sampleState 7 1).2.2
    ⟨2 * 10 ^ 18⟩ ⟨10, 5⟩ (by decide) (by decide)
  exact ⟨by decide, h.1, h.2.2⟩

/-- On the exchange strategy the DEX supply amount is covered by the
confiscated collateral. -/
lemma chooseStrategyExchangeLe (k : Consts) (e : Env) (c stableId collateral supply : Nat)
    (h : chooseLiquidationStrategy k e c stableId collateral supply = .exchange) :
    supply ≤ collateral := by
  unfold chooseLiquidationStrategy at h
  by_cases hc : supply ≠ 0 ∧ supply ≤ collateral ∧
      slippageAcceptable k e c stableId supply = true
  · exact hc.2.1
  · rw [if_neg hc] at h
    cases h

/-- Collateral disposal never reaches the refund panic as long as the exchange
strategy implies the supply amount is covered. -/
lemma disposeNePanicked (e : Env) (who c supply target collateral badDebtValue : Nat)
    (strat : LiquidationStrategy)
    (h : strat = .exchange → supply ≤ collateral) :
    disposeCollateral e who c supply target collateral badDebtValue strat ≠ .panicked := by
  cases strat with
  | auction =>
    dsimp only [disposeCollateral]
    cases e.createCollateralAuctionsResult c collateral target who true with
    | error n => intro hp; cases hp
    | ok u => intro hp; cases hp
  | exchange =>
    have hle := h rfl
    dsimp only [disposeCollateral]
    cases e.swapCollateralToStableResult c supply target with
    | error n => intro hp; cases hp
    | ok u =>
      dsimp only
      rw [show checkedSub collateral supply = some (collateral - supply) from by
        simp [checkedSub, hle]]
      dsimp only
      cases e.withdrawCollateralResult who c (collateral - supply) with
      | error n => intro hp; cases hp
      | ok u2 => intro hp; cases hp

/-- C1: the Exchange strategy is chosen iff the supply amount is nonzero, the
confiscated collateral covers it, and the DEX reports a defined slippage not
above the configured maximum; and `liquidate_unsafe_cdp` never reaches the
refund-subtraction panic, since on the exchange path the checked subtraction
`collateral - supply_collateral_amount` always succeeds. -/
theorem C1_strategy_selection (k : Consts) (e : Env) (s : EngineState)
    (who c stableId collateral supply : Nat) :
    (chooseLiquidationStrategy k e c stableId collateral supply = .exchange ↔
      (supply ≠ 0 ∧ supply ≤ collateral ∧
        slippageAcceptable k e c stableId supply = true)) ∧
    liquidateUnsafeCdp k e s who c ≠ .panicked := by
  constructor
  · unfold chooseLiquidationStrategy
    by_cases hc : supply ≠ 0 ∧ supply ≤ collateral ∧
        slippageAcceptable k e c stableId supply = true
    · simp [hc]
    · simp only [if_neg hc]
      constructor
      · intro h; cases h
      · intro h; exact absurd h hc
  · unfold liquidateUnsafeCdp
    by_cases hu : isCdpUnsafe k e s c (e.positions c who).collateral
        (e.positions c who).debit = false
    · rw [if_pos hu]
      intro h; cases h
    · rw [if_neg hu]
      cases e.confiscateResult who c (e.positions c who).collateral
          (e.positions c who).debit with
      | error n => intro h; cases h
      | ok u =>
        dsimp only
        exact disposeNePanicked e who c _ _ _ _ _
          (chooseStrategyExchangeLe k e c k.stableCurrencyId _ _)

/-- C1 witness: an unsafe position with an affordable DEX quote takes the
exchange path and refunds the 60 surplus collateral units without panicking. -/
theorem C1_witness :
    chooseLiquidationStrategy sampleConsts envLiquidate 1 0 100 40 = .exchange ∧
    liquidateUnsafeCdp sampleConsts envLiquidate sampleState 7 1 ≠ .panicked := by
  have h := C1_strategy_selection sampleConsts envLiquidate sampleState 7 1 0 100 40
  exact ⟨h.1.mpr (by refine ⟨by decide, by decide, by decide⟩), h.2⟩

/-- C3: in each per-collateral accrual step, the debit exchange rate is
advanced (by the computed increment) only when the treasury's surplus call
succeeds; when the call fails the whole state, in particular the exchange rate
of that collateral type, is left unchanged. -/
theorem C3_accrual_requires_surplus (k : Consts) (e : Env) (s : EngineState) (c : Nat) :
    (e.onSystemSurplusOk (issuedSurplus k e s c) = false →
      onFinalizeCurrency k e s c = s) ∧
    (∀ c2, (onFinalizeCurrency k e s c).debitExchangeRate c2 ≠ s.debitExchangeRate c2 →
      e.onSystemSurplusOk (issuedSurplus k e s c) = true ∧ c2 = c ∧
      (onFinalizeCurrency k e s c).debitExchangeRate c =
        some (satAdd (getDebitExchangeRate k s c) (feeIncrement k s c))) := by
  unfold onFinalizeCurrency
  dsimp only
  by_cases hg : (getStabilityFee s c).inner ≠ 0 ∧ e.totalPositionsDebit c ≠ 0
  · rw [if_pos hg]
    by_cases hok : e.onSystemSurplusOk (issuedSurplus k e s c) = true
    · rw [if_pos hok]
      constructor
      · intro hfail
        rw [hok] at hfail
        cases hfail
      · intro c2 hne
        refine ⟨hok, ?_, by simp⟩
        by_contra hc2
        exact hne (by simp [hc2])
    · rw [if_neg hok]
      exact ⟨fun _ => rfl, fun c2 hne => absurd rfl hne⟩
  · rw [if_neg hg]
    exact ⟨fun _ => rfl, fun c2 hne => absurd rfl hne⟩

/-- C3 witness: with a nonzero fee and debit but a treasury that rejects the
surplus, the accrual step leaves the storage untouched. -/
theorem C3_witness :
    onFinalizeCurrency sampleConsts envSurplusFail sampleStateFee 1 = sampleStateFee :=
  (C3_accrual_requires_surplus sampleConsts envSurplusFail sampleStateFee 1).1 (by decide)

/-- Every effective debit exchange rate of a well-formed state is a
representable `u128`. -/
lemma rateWF (k : Consts) (hk : k.defaultDebitExchangeRate.inner ≤ U128MAX)
    (s : EngineState) (hs : WFState s) (c : Nat) :
    (getDebitExchangeRate k s c).inner ≤ U128MAX := by
  unfold getDebitExchangeRate
  cases hsc : s.debitExchangeRate c with
  | some r => exact hs c r hsc
  | none => exact hk

/-- One accrual step preserves well-formedness and never decreases any
effective debit exchange rate. -/
lemma onFinalizeCurrencyMono (k : Consts) (hk : k.defaultDebitExchangeRate.inner ≤ U128MAX)
    (e : Env) (s : EngineState) (hs : WFState s) (c : Nat) :
    WFState (onFinalizeCurrency k e s c) ∧
    ∀ x, (getDebitExchangeRate k s x).inner ≤
      (getDebitExchangeRate k (onFinalizeCurrency k e s c) x).inner := by
  unfold onFinalizeCurrency
  dsimp only
  by_cases hg : (getStabilityFee s c).inner ≠ 0 ∧ e.totalPositionsDebit c ≠ 0
  · rw [if_pos hg]
    by_cases hok : e.onSystemSurplusOk (issuedSurplus k e s c) = true
    · rw [if_pos hok]
      constructor
      · intro c2 r hr
        by_cases hc2 : c2 = c
        · simp only [hc2, if_pos rfl] at hr
          cases hr
          exact Nat.min_le_right _ _
        · simp only [if_neg hc2] at hr
          exact hs c2 r hr
      · intro x
        by_cases hx : x = c
        · subst hx
          have hb : (getDebitExchangeRate k s x).inner ≤ U128MAX := rateWF k hk s hs x
          simp only [getDebitExchangeRate, if_pos rfl, Option.getD_some, satAdd]
          exact le_min (Nat.le_add_right _ _) hb
        · simp only [getDebitExchangeRate, if_neg hx]
          exact le_refl _
    · rw [if_neg hok]
      exact ⟨hs, fun x => le_refl _⟩
  · rw [if_neg hg]
    exact ⟨hs, fun x => le_refl _⟩

/-- Folding accrual steps over a list of collateral types preserves
well-formedness and monotonicity of every effective rate. -/
lemma onFinalizeListMono (k : Consts) (hk : k.defaultDebitExchangeRate.inner ≤ U128MAX)
    (e : Env) :
    ∀ (l : List Nat) (s : EngineState), WFState s →
      WFState (l.foldl (fun st c => onFinalizeCurrency k e st c) s) ∧
      ∀ x, (getDebitExchangeRate k s x).inner ≤
        (getDebitExchangeRate k (l.foldl (fun st c => onFinalizeCurrency k e st c) s) x).inner := by
  intro l
  induction l with
  | nil => exact fun s hs => ⟨hs, fun x => le_refl _⟩
  | cons c t ih =>
    intro s hs
    have h1 := onFinalizeCurrencyMono k hk e s hs c
    have h2 := ih (onFinalizeCurrency k e s c) h1.1
    exact ⟨h2.1, fun x => le_trans (h1.2 x) (h2.2 x)⟩

/-- Every module operation preserves well-formedness and never decreases any
effective debit exchange rate. -/
lemma applyOpMono (k : Consts) (hk : k.defaultDebitExchangeRate.inner ≤ U128MAX)
    (s : EngineState) (hs : WFState s) (op : ModuleOp) :
    WFState (applyOp k s op) ∧
    ∀ x, (getDebitExchangeRate k s x).inner ≤
      (getDebitExchangeRate k (applyOp k s op) x).inner := by
  cases op with
  | finalizeBlock e =>
    dsimp only [applyOp, onFinalize]
    by_cases hsd : e.isShutdown = true
    · rw [if_pos hsd]
      exact ⟨hs, fun x => le_refl _⟩
    · rw [if_neg hsd]
      exact onFinalizeListMono k hk e k.collateralCurrencyIds s hs
  | globalParams fee =>
    exact ⟨hs, fun x => le_refl _⟩
  | collateralParamsOp c sf lr lp rcr mtdv =>
    dsimp only [applyOp, setCollateralParams]
    by_cases hc : k.collateralCurrencyIds.contains c = false
    · rw [if_pos hc]
      exact ⟨hs, fun x => le_refl _⟩
    · rw [if_neg hc]
      exact ⟨hs, fun x => le_refl _⟩
  | liquidateOp e who c => exact ⟨hs, fun x => le_refl _⟩
  | settleOp e who c => exact ⟨hs, fun x => le_refl _⟩
  | adjustOp e who c ca da => exact ⟨hs, fun x => le_refl _⟩

/-- A sequence of module operations preserves well-formedness and never
decreases any effective debit exchange rate. -/
lemma applyOpsMono (k : Consts) (hk : k.defaultDebitExchangeRate.inner ≤ U128MAX) :
    ∀ (ops : List ModuleOp) (s : EngineState), WFState s →
      WFState (applyOps k ops s) ∧
      ∀ x, (getDebitExchangeRate k s x).inner ≤
        (getDebitExchangeRate k (applyOps k ops s) x).inner := by
  intro ops
  induction ops with
  | nil => exact fun s hs => ⟨hs, fun x => le_refl _⟩
  | cons op t ih =>
    intro s hs
    have h1 := applyOpMono k hk s hs op
    have h2 := ih (applyOp k s op) h1.1
    exact ⟨h2.1, fun x => le_trans (h1.2 x) (h2.2 x)⟩

/-- C4: for every well-formed state, the effective debit exchange rate of
every collateral type is monotonically non-decreasing under every sequence of
module operations; and a single accrual step either leaves the stored rate
unchanged or replaces it with its saturating sum with the computed
increment. -/
theorem C4_exchange_rate_monotone (k : Consts) (s : EngineState) (e : Env)
    (hk : k.defaultDebitExchangeRate.inner ≤ U128MAX) (hs : WFState s)
    (ops : List ModuleOp) (c : Nat) :
    (getDebitExchangeRate k s c).inner ≤
      (getDebitExchangeRate k (applyOps k ops s) c).inner ∧
    ((onFinalizeCurrency k e s c).debitExchangeRate c = s.debitExchangeRate c ∨
      (onFinalizeCurrency k e s c).debitExchangeRate c =
        some (satAdd (getDebitExchangeRate k s c) (feeIncrement k s c))) := by
  refine ⟨(applyOpsMono k hk ops s hs).2 c, ?_⟩
  unfold onFinalizeCurrency
  dsimp only
  by_cases hg : (getStabilityFee s c).inner ≠ 0 ∧ e.totalPositionsDebit c ≠ 0
  · rw [if_pos hg]
    by_cases hok : e.onSystemSurplusOk (issuedSurplus k e s c) = true
    · rw [if_pos hok]
      right
      simp
    · rw [if_neg hok]
      left
      rfl
  · rw [if_neg hg]
    left
    rfl

/-- C4 witness: one accrual block over the sample environment does not decrease
the effective exchange rate of collateral type 1. -/
theorem C4_witness :
    (getDebitExchangeRate sampleConsts sampleState 1).inner ≤
      (getDebitExchangeRate sampleConsts
        (applyOps sampleConsts [ModuleOp.finalizeBlock envLiquidate] sampleState) 1).inner :=
  (C4_exchange_rate_monotone sampleConsts sampleState envLiquidate (by decide)
    (by intro c r h; simp [sampleState] at h)
    [ModuleOp.finalizeBlock envLiquidate] 1).1

/-- Any error of the disposal stage is an external collaborator error. -/
lemma disposeErrExt (e : Env) (who c supply target collateral badDebtValue : Nat)
    (strat : LiquidationStrategy) :
    ∀ err, disposeCollateral e who c supply target collateral badDebtValue strat = .err err →
      ∃ n, err = .ext n := by
  cases strat with
  | auction =>
    dsimp only [disposeCollateral]
    cases e.createCollateralAuctionsResult c collateral target who true with
    | error n => intro err h; cases h; exact ⟨n, rfl⟩
    | ok u => intro err h; cases h
  | exchange =>
    dsimp only [disposeCollateral]
    cases e.swapCollateralToStableResult c supply target with
    | error n => intro err h; cases h; exact ⟨n, rfl⟩
    | ok u =>
      dsimp only
      cases checkedSub collateral supply with
      | none => intro err h; cases h
      | some refundAmount =>
        dsimp only
        cases e.withdrawCollateralResult who c refundAmount with
        | error n => intro err h; cases h; exact ⟨n, rfl⟩
        | ok u2 => intro err h; cases h

/-- C10: `liquidate_unsafe_cdp` and `settle_cdp_has_debit` never return
`InvalidCollateralType` for any collateral type, configured or not (they use
the default risk parameters for an unconfigured type), while `adjust_position`
and `set_collateral_params` reject any collateral type outside the configured
set with exactly that error. -/
theorem C10_no_invalid_collateral_type (k : Consts) (e : Env) (s : EngineState)
    (who c : Nat) (ca da : Int) :
    (∀ err, liquidateUnsafeCdp k e s who c = .err err →
      err ≠ .module .invalidCollateralType) ∧
    (∀ err, settleCdpHasDebit k e s who c = .error err →
      err ≠ .module .invalidCollateralType) ∧
    (k.collateralCurrencyIds.contains c = false →
      adjustPosition k e who c ca da = .error (.module .invalidCollateralType)) ∧
    (∀ sf lr lp rcr mtdv, k.collateralCurrencyIds.contains c = false →
      setCollateralParams k s c sf lr lp rcr mtdv =
        .error (.module .invalidCollateralType)) ∧
    (s.collateralParams c = rmpDefault →
      getLiquidationRatio k s c = k.defaultLiquidationRatio ∧
      getLiquidationPenalty k s c = k.defaultLiquidationPenalty) := by
  refine ⟨?_, ?_, ?_, ?_, ?_⟩
  · unfold liquidateUnsafeCdp
    by_cases hu : isCdpUnsafe k e s c (e.positions c who).collateral
        (e.positions c who).debit = false
    · rw [if_pos hu]
      intro err h
      cases h
      intro hc
      cases hc
    · rw [if_neg hu]
      cases e.confiscateResult who c (e.positions c who).collateral
          (e.positions c who).debit with
      | error n =>
        intro err h
        cases h
        intro hc
        cases hc
      | ok u =>
        dsimp only
        intro err h
        rcases disposeErrExt e who c _ _ _ _ _ err h with ⟨n, rfl⟩
        intro hc
        cases hc
  · unfold settleCdpHasDebit
    by_cases hd : (e.positions c who).debit = 0
    · rw [if_pos hd]
      intro err h
      cases h
      intro hc
      cases hc
    · rw [if_neg hd]
      cases e.getRelativePrice k.stableCurrencyId c with
      | none =>
        intro err h
        cases h
        intro hc
        cases hc
      | some p =>
        dsimp only
        cases e.confiscateResult who c
            (min (satMulInt p (getDebitValue k s c (e.positions c who).debit))
              (e.positions c who).collateral) (e.positions c who).debit with
        | error n =>
          intro err h
          cases h
          intro hc
          cases hc
        | ok u => intro err h; cases h
  · intro hc
    unfold adjustPosition
    rw [if_pos hc]
  · intro sf lr lp rcr mtdv hc
    unfold setCollateralParams
    rw [if_pos hc]
  · intro hp
    unfold getLiquidationRatio getLiquidationPenalty
    rw [hp]
    exact ⟨rfl, rfl⟩

/-- C10 witness: collateral type 5 is not configured, yet liquidation and
settlement do not reject it as an invalid collateral type, while
`adjust_position` does. -/
theorem C10_witness :
    (LiquidateResult.err (.module .mustBeUnsafe) =
        liquidateUnsafeCdp sampleConsts envLiquidate sampleState 7 5 →
      DispatchError.module .mustBeUnsafe ≠ .module .invalidCollateralType) ∧
    adjustPosition sampleConsts envLiquidate 7 5 0 0 =
      .error (.module .invalidCollateralType) := by
  have h := C10_no_invalid_collateral_type sampleConsts envLiquidate sampleState 7 5 0 0
  exact ⟨fun hh => h.1 _ hh.symm, h.2.2.1 (by decide)⟩

/-- C8 counterexample: at block 3 an accepted settlement request for
collateral type 1 and owner 7 carries the deduplication tag (1, 7), which is
not the (period, collateral_type, owner) tag (3, 1, 7) the claim asserts for
every accepted request. -/
theorem C8_counterexample :
    validateUnsigned sampleConsts envSettle sampleState 3 (.settleCall 1 7) =
      .ok { priority := 11, provides := [[1, 7]], longevity := 64, propagate := true } ∧
    ([[1, 7]] : List (List Nat)) ≠ [[3, 1, 7]] := by
  exact ⟨by decide, by decide⟩

/-- C8 amended: every accepted request receives the configured priority and a
validity window of 64 periods; an accepted liquidation request receives a
deduplication tag keyed by (period, collateral_type, owner), while an accepted
settlement request receives one keyed by (collateral_type, owner) only. -/
theorem C8_request_validity (k : Consts) (e : Env) (s : EngineState)
    (blockNumber c who : Nat) :
    (∀ t, validateUnsigned k e s blockNumber (.liquidateCall c who) = .ok t →
      t.priority = k.unsignedPriority ∧ t.provides = [[blockNumber, c, who]] ∧
      t.longevity = 64) ∧
    (∀ t, validateUnsigned k e s blockNumber (.settleCall c who) = .ok t →
      t.priority = k.unsignedPriority ∧ t.provides = [[c, who]] ∧
      t.longevity = 64) := by
  constructor
  · intro t h
    unfold validateUnsigned at h
    dsimp only at h
    by_cases hcond : isCdpUnsafe k e s c (e.positions c who).collateral
        (e.positions c who).debit = false ∨ e.isShutdown = true
    · rw [if_pos hcond] at h
      cases h
    · rw [if_neg hcond] at h
      cases h
      exact ⟨rfl, rfl, rfl⟩
  · intro t h
    unfold validateUnsigned at h
    dsimp only at h
    by_cases hcond : (e.positions c who).debit = 0 ∨ e.isShutdown = false
    · rw [if_pos hcond] at h
      cases h
    · rw [if_neg hcond] at h
      cases h
      exact ⟨rfl, rfl, rfl⟩

/-- C8 amended witness: the accepted liquidation request of the sample
environment carries the configured priority 11, the period-keyed tag
(3, 1, 7) and longevity 64. -/
theorem C8_witness :
    ({ priority := 11, provides := [[3, 1, 7]], longevity := 64,
        propagate := true } : ValidTransaction).priority = sampleConsts.unsignedPriority ∧
    ({ priority := 11, provides := [[3, 1, 7]], longevity := 64,
        propagate := true } : ValidTransaction).provides = [[3, 1, 7]] ∧
    ({ priority := 11, provides := [[3, 1, 7]], longevity := 64,
        propagate := true } : ValidTransaction).longevity = 64 :=
  (C8_request_validity sampleConsts envLiquidate sampleState 3 1 7).1
    { priority := 11, provides := [[3, 1, 7]], longevity := 64, propagate := true }
    (by decide)

/-- C9 counterexample: a checkpoint persisted while two collateral types were
configured (index advanced to 1 after finishing index 0) is read back when
only one type is configured; the unchecked indexing then finds no element
(the Rust expression `collateral_currency_ids[collateral_position]` would
panic), refuting the claim that every readable checkpoint index is in
bounds. -/
theorem C9_counterexample :
    updateCheckpoint 2 0 true none = (1, none) ∧
    workerCurrencyLookup [42] (loadCheckpoint (some (updateCheckpoint 2 0 true none)) 0).1 =
      none := by
  exact ⟨by decide, by decide⟩

/-- C9 amended: under a fixed configured list, the scanner's own checkpoints
stay in bounds: from an in-bounds index, the persisted index (finished or not)
is again strictly below the list length, and both a fresh random start (the
random pick is at most `len - 1`) and a reloaded own checkpoint make the
unchecked indexing succeed.  Only a checkpoint persisted under a longer
configured list can make it panic. -/
theorem C9_bounded_index (ids : List Nat) (hne : ids ≠ []) (pos : Nat)
    (hpos : pos < ids.length) (finished : Bool) (lastKey : Option Nat)
    (randomPick : Nat) (hr : randomPick ≤ ids.length - 1) :
    (updateCheckpoint ids.length pos finished lastKey).1 < ids.length ∧
    (workerCurrencyLookup ids (loadCheckpoint none randomPick).1).isSome = true ∧
    (workerCurrencyLookup ids
      (loadCheckpoint (some (updateCheckpoint ids.length pos finished lastKey))
        randomPick).1).isSome = true := by
  have hlen : 0 < ids.length := List.length_pos.mpr hne
  have hlook : ∀ n, n < ids.length → (workerCurrencyLookup ids n).isSome = true := by
    intro n hn
    unfold workerCurrencyLookup
    rw [List.get?_eq_get hn]
    rfl
  have h1 : (updateCheckpoint ids.length pos finished lastKey).1 < ids.length := by
    unfold updateCheckpoint
    cases finished with
    | true =>
      rw [if_pos rfl]
      unfold nextCollateralPosition
      by_cases h2 : pos < ids.length - 1
      · rw [if_pos h2]
        omega
      · rw [if_neg h2]
        exact hlen
    | false =>
      rw [if_neg (by decide)]
      exact hpos
  refine ⟨h1, hlook randomPick (by omega), hlook _ h1⟩

/-- C9 amended witness: with the two configured types, finishing index 1 wraps
the persisted index to 0 and both checkpoint loads index in bounds. -/
theorem C9_witness :
    (updateCheckpoint ([1, 2] : List Nat).length 1 true none).1 <
      ([1, 2] : List Nat).length ∧
    (workerCurrencyLookup [1, 2] (loadCheckpoint none 1).1).isSome = true ∧
    (workerCurrencyLookup [1, 2]
      (loadCheckpoint (some (updateCheckpoint ([1, 2] : List Nat).length 1 true none))
        1).1).isSome = true :=
  C9_bounded_index [1, 2] (by decide) 1 (by decide) true none 1 (by decide)

/-- getLast? of a cons with nonempty tail is the tail's getLast?. -/
lemma getLast?_cons_of_ne {a : Nat} {l : List Nat} (h : l ≠ []) :
    (a :: l).getLast? = l.getLast? := by
  cases l with
  | nil => exact absurd rfl h
  | cons b l2 => exact List.getLast?_cons_cons

/-- Resumability: over a strictly ascending key list, resuming from the last
key examined by a bounded scan from the start leaves exactly the keys after
the first `kk` examined ones. -/
lemma resumeDrop (l : List Nat) :
    ∀ kk : Nat, l.Pairwise (fun x y => x < y) → kk < l.length →
      entriesAfter l (scanLastKey l none kk) = l.drop kk := by
  induction l with
  | nil =>
    intro kk _ h
    simp at h
  | cons a t ih =>
    intro kk hpw hlt
    obtain ⟨hhead, htail⟩ := List.pairwise_cons.mp hpw
    cases kk with
    | zero => simp [scanLastKey, scanExamined, entriesAfter]
    | succ n =>
      cases n with
      | zero =>
        have hsl : scanLastKey (a :: t) none 1 = some a := by
          simp [scanLastKey, scanExamined, entriesAfter]
        rw [hsl]
        simp only [entriesAfter, List.filter_cons]
        rw [if_neg (by simp)]
        rw [show (a :: t).drop 1 = t from rfl]
        refine List.filter_eq_self.mpr ?_
        intro b hb
        exact decide_eq_true (hhead b hb)
      | succ m =>
        have htlen : m + 1 < t.length := by
          simp only [List.length_cons] at hlt
          omega
        have htne : t ≠ [] := by
          intro hcon
          rw [hcon] at htlen
          simp at htlen
        have hne2 : t.take (m + 1) ≠ [] := by
          intro hcon
          rcases List.take_eq_nil_iff.mp hcon with h1 | h1
          · exact absurd h1 (by omega)
          · exact htne h1
        cases hgl : (t.take (m + 1)).getLast? with
        | none =>
          exact absurd (List.getLast?_eq_none_iff.mp hgl) hne2
        | some x =>
          have hxmem0 : x ∈ t.take (m + 1) := by
            rcases List.mem_getLast?_eq_getLast (Option.mem_def.mpr hgl) with ⟨hne3, hx⟩
            rw [hx]
            exact List.getLast_mem hne3
          have hxmem : x ∈ t := List.take_subset _ _ hxmem0
          have hax : a < x := hhead x hxmem
          have hsl : scanLastKey t none (m + 1) = some x := by
            simp [scanLastKey, scanExamined, entriesAfter, hgl]
          have hih := ih (m + 1) htail htlen
          rw [hsl] at hih
          have hsl2 : scanLastKey (a :: t) none (m + 2) = some x := by
            simp [scanLastKey, scanExamined, entriesAfter, List.take_succ_cons,
              getLast?_cons_of_ne hne2, hgl]
          rw [hsl2]
          simp only [entriesAfter, List.filter_cons]
          rw [if_neg (by simp [Nat.lt_asymm hax])]
          rw [show (a :: t).drop (m + 2) = t.drop (m + 1) from rfl]
          simpa [entriesAfter] using hih

/-- C7: when iteration finished, the persisted checkpoint clears the resume
key and advances the collateral index (next index below the end, wrapping to 0
after the last); when it did not finish, the checkpoint keeps the index and
stores the last key examined, and over a strictly ascending key list the next
invocation resumes with exactly the entries after the examined prefix (entry
`k+1` onward after examining `k` entries). -/
theorem C7_scanner_checkpoint (entries : List Nat) (len pos maxIter : Nat)
    (resume : Option Nat) :
    (scanFinished entries resume maxIter = true →
      scannerCheckpoint entries len pos resume maxIter =
        (nextCollateralPosition len pos, none)) ∧
    (pos < len - 1 → nextCollateralPosition len pos = pos + 1) ∧
    (¬ pos < len - 1 → nextCollateralPosition len pos = 0) ∧
    (scanFinished entries resume maxIter = false →
      scannerCheckpoint entries len pos resume maxIter =
        (pos, scanLastKey entries resume maxIter)) ∧
    (entries.Pairwise (fun x y => x < y) →
      scanFinished entries none maxIter = false →
      scanExamined entries none maxIter = entries.take maxIter ∧
      entriesAfter entries (scanLastKey entries none maxIter) =
        entries.drop maxIter) := by
  refine ⟨?_, ?_, ?_, ?_, ?_⟩
  · intro h
    unfold scannerCheckpoint updateCheckpoint
    rw [h, if_pos rfl]
  · intro h
    unfold nextCollateralPosition
    rw [if_pos h]
  · intro h
    unfold nextCollateralPosition
    rw [if_neg h]
  · intro h
    unfold scannerCheckpoint updateCheckpoint
    rw [h, if_neg (by decide)]
  · intro hpw hnf
    have hlt : maxIter < entries.length := by
      have := of_decide_eq_false hnf
      simp only [entriesAfter] at this
      omega
    exact ⟨rfl, resumeDrop entries maxIter hpw hlt⟩

/-- C7 witness: scanning three keys with bound 2 does not finish, keeps
collateral index 0 and stores resume key 2; resuming leaves exactly the third
entry. -/
theorem C7_witness :
    (scannerCheckpoint [1, 2, 3] 2 0 none 2 =
      (0, scanLastKey [1, 2, 3] none 2)) ∧
    entriesAfter [1, 2, 3] (scanLastKey [1, 2, 3] none 2) = ([1, 2, 3] : List Nat).drop 2 := by
  have h := C7_scanner_checkpoint [1, 2, 3] 2 0 2 none
  exact ⟨h.2.2.2.1 (by decide), (h.2.2.2.2 (by decide) (by decide)).2⟩
